import Mathlib

/-!
Verification of the kitchen rhythm-game backend (chart scheduler, condition
evaluator, note judgment engine, miss watchdog).

The Python modules `config.py`, `backend/audio_manager.py`,
`backend/chart_manager.py`, `backend/game_logic.py` and
`backend/mqtt_handler.py` are shallowly embedded below.  Timestamps and
sensor magnitudes are modelled as rationals (`ℚ`); the mutable note
dictionaries become a `Note` structure; the shared registry
(`pending_notes`) becomes a `List Note`; SocketIO emissions become values
of an `Emission` type collected by each operation.  Lock-delimited
critical sections of the Python code are the atomic steps of the model.
-/

namespace Kitchen

/-- `config.py`: `LEAD_TIME = 3` (seconds early to show notes visually). -/
def LEAD_TIME : ℚ := 3

/-- `config.py`: `HIT_WINDOW = 3`. -/
def HIT_WINDOW : ℚ := 3

/-- `config.py`: `HOLD_CHECK_INTERVAL = 0.05`. -/
def HOLD_CHECK_INTERVAL : ℚ := 1/20

/-- `config.py`: `HOLD_GRACE_PERIOD = 0.1`. -/
def HOLD_GRACE_PERIOD : ℚ := 1/10

/-- `config.py`: `HOLD_THRESHOLD = 1`. -/
def HOLD_THRESHOLD : ℚ := 1

/-- `config.py`: the fixed `threshold` entry of `SOUND_RULES[utensil]`
(`pan ↦ 5`, `cutting_board ↦ 0`, `mixing_bowl ↦ 0`). -/
def soundRuleThreshold (utensil : String) : ℚ :=
  if utensil = "pan" then 5 else 0

/-- Band reference values `LOW_FIRE`, `MED_FIRE`, `HIGH_FIRE`.
Modelled from the spec: these constants are imported by
`audio_manager.py` from a configuration module that is not present in the
sources; the spec only says each band has "a configured reference value",
so they are carried as abstract parameters. -/
structure FireRefs where
  LOW_FIRE : ℚ
  MED_FIRE : ℚ
  HIGH_FIRE : ℚ

/-- A sensor snapshot: the per-message JSON dictionary, typed by the
fields the backend reads (`rotation`, `distance`, button entries, `x`,
`y`, and the `direction` string injected by `mqtt_handler.on_message`).
A `none` field models an absent dictionary key, read in the source with
`sensor_data.get(key, default)`. -/
structure SensorData where
  rotation : Option ℚ := none
  distance : Option Bool := none
  buttons : String → Option ℚ := fun _ => none
  x : Option ℚ := none
  y : Option ℚ := none
  direction : Option String := none

/-- Python `needle in str(target)` substring test. -/
def strHas (hay needle : String) : Bool :=
  decide (needle.data <:+: hay.data)

/-- `audio_manager.should_play(utensil, sensor_data, target, threshold)`:
the condition evaluator.  Targets are the stringified chart target
(`str(target)` in the source); `none` models Python `None`. -/
def should_play (fr : FireRefs) (utensil : String) (sd : SensorData)
    (target : Option String) (threshold : ℚ) : Bool :=
  match target with
  | none => false
  | some t =>
    if utensil = "pan" then
      -- Pan uses rotation sensor AND button state
      let button_held := sd.distance.getD false
      let curr_val := sd.rotation.getD 0
      if strHas t "low" then
        decide (curr_val ≤ fr.LOW_FIRE + threshold) &&
          decide (fr.LOW_FIRE - threshold ≤ curr_val)
      else if strHas t "med" then
        decide (curr_val ≤ fr.MED_FIRE + threshold) &&
          decide (fr.MED_FIRE - threshold ≤ curr_val)
      else if strHas t "high" then
        decide (curr_val ≤ fr.HIGH_FIRE + threshold) &&
          decide (fr.HIGH_FIRE - threshold ≤ curr_val)
      else if strHas t "flip" then
        button_held
      else
        false
    else if utensil = "cutting_board" then
      -- Cutting board uses button presses
      ((sd.buttons t).getD 0) == 1
    else if utensil = "mixing_bowl" then
      -- Mixing bowl: up down right left around a fixed center
      let x := sd.x.getD 512
      let y := sd.y.getD 512
      let EDGE_THRESHOLD : ℚ := 256
      let CENTER : ℚ := 512
      if t = "up" then decide (y < CENTER - EDGE_THRESHOLD)
      else if t = "down" then decide (y > CENTER + EDGE_THRESHOLD)
      else if t = "left" then decide (x < CENTER - EDGE_THRESHOLD)
      else if t = "right" then decide (x > CENTER + EDGE_THRESHOLD)
      else false
    else
      false

/-- `mqtt_handler.py`: `CENTER_X = 519`. -/
def CENTER_X : ℚ := 519

/-- `mqtt_handler.detect_mixing_direction(x, y)`: returns the detected
direction together with the updated `mixing_bowl_state['direction']`
(first component = return value, second = new stored state). -/
def detect_mixing_direction (x : ℚ) (stored : Option String) :
    Option String × Option String :=
  if x < CENTER_X then (some "counterclockwise", some "counterclockwise")
  else if x > CENTER_X then (some "clockwise", some "clockwise")
  else (stored, stored)

/-- A chart event as consumed by `chart_manager._chart_loop`: the fields
of the chart dictionaries that the scheduler reads.  `duration` is
`Option` because the loop reads it with `evt.get("duration", 0)`. -/
structure ChartEvent where
  time : ℚ
  utensil : String
  instrument : String
  target : Option String
  duration : Option ℚ := none
deriving DecidableEq

/-- A pending-note record, mirroring the dictionary appended to
`pending_notes` in `_chart_loop` (lines 177-190 of `chart_manager.py`). -/
structure Note where
  utensil : String
  instrument : String
  target : Option String
  hit_time : ℚ
  duration : ℚ
  is_hold : Bool
  hit : Bool
  hold_started : Bool
  hold_active : Bool
  hold_broken : Bool
  hold_end_time : ℚ
  last_check_time : Option ℚ
deriving DecidableEq

/-- The pending-note dictionary built for one chart event in
`_chart_loop`: `hit_time = start_time + evt["time"]`,
`is_hold = duration > HOLD_THRESHOLD`, all flags initially false. -/
def mkNote (start_time : ℚ) (evt : ChartEvent) : Note :=
  let hit_time := start_time + evt.time
  let duration := evt.duration.getD 0
  { utensil := evt.utensil
    instrument := evt.instrument
    target := evt.target
    hit_time := hit_time
    duration := duration
    is_hold := decide (duration > HOLD_THRESHOLD)
    hit := false
    hold_started := false
    hold_active := false
    hold_broken := false
    hold_end_time := hit_time + duration
    last_check_time := none }

/-- A queue entry `(scheduled_time, unique_id, event)` as pushed by
`heapq.heappush` in `_chart_loop`. -/
structure QueueEntry where
  sched : ℚ
  uid : ℕ
  evt : ChartEvent
deriving DecidableEq

/-- The queue-building loop of `_chart_loop` (lines 164-190): for each
event, push `(hit_time - LEAD_TIME, next(counter), evt)` on the visual
queue and `(hit_time, next(counter), evt)` on the activation queue, and
append a pending note.  The queues are returned in push order (the heap
orders by `sched` with `uid` as tie-break; the heap order is irrelevant
to the properties below).  `c` is the running `itertools.count` value. -/
def buildQueues (start_time : ℚ) (c : ℕ) :
    List ChartEvent → List QueueEntry × List QueueEntry × List Note
  | [] => ([], [], [])
  | evt :: rest =>
    let hit_time := start_time + evt.time
    let visual_time := hit_time - LEAD_TIME
    (⟨visual_time, c, evt⟩ :: (buildQueues start_time (c + 2) rest).1,
     ⟨hit_time, c + 1, evt⟩ :: (buildQueues start_time (c + 2) rest).2.1,
     mkNote start_time evt :: (buildQueues start_time (c + 2) rest).2.2)

/-- The scheduler state touched by `start_chart_playback`
(`chart_manager.py` lines 29-61): the loaded chart, whether the chart
thread is alive/running, the shared note registry, and the per-utensil
`target_value` bindings of `SOUND_RULES`. -/
structure SchedState where
  chart_data : Option (List ChartEvent)
  chart_running : Bool
  pending_notes : List Note
  target_values : String → Option String

/-- What `start_chart_playback` does on each path: logs an error (no
chart), logs a warning (already running), or starts the playback and
miss-checker threads. -/
inductive StartOutcome
  | errNoChart
  | warnAlreadyRunning
  | started
deriving DecidableEq

/-- `chart_manager.start_chart_playback(socketio, loaded_chart_data)`:
stores the argument in the global `chart_data` first, then aborts with a
logged error if it is `None`, aborts with a logged warning if the chart
thread is already alive, and otherwise sets `chart_playing` and starts
the playback and miss-checker threads (queue building happens later,
inside the spawned `_chart_loop`).  The function itself returns `None`
on every path; the outcome value records which log message was
produced. -/
def start_chart_playback (st : SchedState) (loaded : Option (List ChartEvent)) :
    SchedState × StartOutcome :=
  let st1 := { st with chart_data := loaded }
  match loaded with
  | none => (st1, .errNoChart)
  | some _ =>
    if st.chart_running then (st1, .warnAlreadyRunning)
    else ({ st1 with chart_running := true }, .started)

/-- Python `int(x)`: truncation toward zero. -/
def pyInt (q : ℚ) : ℤ := if 0 ≤ q then ⌊q⌋ else ⌈q⌉

/-- The `note_result` SocketIO emissions of `game_logic.py`, one
constructor per `result` value, with the payload fields the properties
below depend on.  `time`/`actual` is the current clock reading,
`scheduled` the note's `hit_time`; `miss` additionally records whether
the missed note was a hold (`note_type`; the source then also attaches
the hold's expected duration). -/
inductive Emission
  | hit (utensil instrument : String) (time scheduled : ℚ) (accuracy_ms : ℤ)
  | hold_start (utensil instrument : String) (time scheduled duration : ℚ)
      (accuracy_ms : ℤ)
  | hold_break (utensil instrument : String) (time scheduled expected held : ℚ)
      (completion_percent : ℤ)
  | hold_complete (utensil instrument : String) (time scheduled duration : ℚ)
  | miss (utensil instrument : String) (scheduled actual : ℚ) (note_is_hold : Bool)
deriving DecidableEq

/-- Note identity key test: `(utensil, hit_time)`, the pair every
`for n in pending_notes` lookup in `game_logic.py` matches on. -/
def sameKey (n : Note) (u : String) (t : ℚ) : Bool :=
  n.utensil == u && n.hit_time == t

/-- The registry entry with key `(u, t)` (first match, like the Python
lookup loops). -/
def findNote (reg : List Note) (u : String) (t : ℚ) : Option Note :=
  reg.find? (fun n => sameKey n u t)

/-- `for n in pending_notes: if p(n): n ← f(n); break` — update the
first matching entry, leave the rest unchanged. -/
def setFirst (p : Note → Bool) (f : Note → Note) : List Note → List Note
  | [] => []
  | n :: rest => if p n then f n :: rest else n :: setFirst p f rest

/-- `game_logic.py` lines 67-73: mark the first matching *unhit* note as
hit (the atomic check-and-set guarding tap double-judgment). -/
def tapSet (u : String) (t : ℚ) (reg : List Note) : List Note :=
  setFirst (fun n => sameKey n u t && !n.hit) (fun n => { n with hit := true }) reg

/-- Lines 107-114: record a hold start. -/
def holdStartSet (u : String) (t now : ℚ) (reg : List Note) : List Note :=
  setFirst (fun n => sameKey n u t)
    (fun n => { n with hold_started := true, hold_active := true,
                       last_check_time := some now }) reg

/-- Lines 134-140 (and 188-194): break a hold. -/
def holdBreakSet (u : String) (t : ℚ) (reg : List Note) : List Note :=
  setFirst (fun n => sameKey n u t)
    (fun n => { n with hold_active := false, hold_broken := true }) reg

/-- Lines 168-174: complete a hold (`hit` doubles as "complete"). -/
def holdCompleteSet (u : String) (t : ℚ) (reg : List Note) : List Note :=
  setFirst (fun n => sameKey n u t)
    (fun n => { n with hold_active := false, hit := true }) reg

/-- Lines 157-162: refresh the hold sampling time. -/
def lastCheckSet (u : String) (t now : ℚ) (reg : List Note) : List Note :=
  setFirst (fun n => sameKey n u t) (fun n => { n with last_check_time := some now }) reg

/-- One iteration of the `for note in notes_copy` body of
`check_note_hits` (`game_logic.py` lines 43-207): the guards and the
condition evaluation read `note` (the state of the note object when the
iteration inspects it), while each transition runs its lock-protected
lookup against the live registry `reg`.  Returns the updated registry
and the emissions issued by this iteration. -/
def judgeOne (fr : FireRefs) (utensil : String) (sd : SensorData) (now : ℚ)
    (note : Note) (reg : List Note) : List Note × List Emission :=
  if note.utensil ≠ utensil then (reg, [])
  else if note.hit && !note.is_hold then (reg, [])
  else if note.hold_broken then (reg, [])
  else
    let dt := now - note.hit_time
    if !note.is_hold then
      -- tap note logic (lines 57-90)
      if dt < -HIT_WINDOW then (reg, [])
      else if should_play fr utensil sd note.target (soundRuleThreshold utensil) then
        (tapSet note.utensil note.hit_time reg,
         [.hit utensil note.instrument now note.hit_time (pyInt (dt * 1000))])
      else (reg, [])
    else
      -- hold note logic (lines 95-207)
      let condition_met := should_play fr utensil sd note.target (soundRuleThreshold utensil)
      if !note.hold_started then
        if dt < -HIT_WINDOW then (reg, [])
        else if condition_met then
          (holdStartSet note.utensil note.hit_time now reg,
           [.hold_start utensil note.instrument now note.hit_time note.duration
              (pyInt (dt * 1000))])
        else (reg, [])
      else if note.hold_active && decide (now < note.hold_end_time) then
        -- maintain phase; `note["last_check_time"] and …` is falsy for `None`
        match note.last_check_time with
        | none => (reg, [])
        | some lct =>
          if decide (now - lct ≥ HOLD_CHECK_INTERVAL) then
            if !condition_met then
              (holdBreakSet note.utensil note.hit_time reg,
               [.hold_break utensil note.instrument now note.hit_time note.duration
                  (now - note.hit_time)
                  (pyInt ((now - note.hit_time) / note.duration * 100))])
            else
              (lastCheckSet note.utensil note.hit_time now reg, [])
          else (reg, [])
      else if note.hold_active && decide (now ≥ note.hold_end_time) then
        -- end phase
        if condition_met || decide (now - note.hold_end_time < HOLD_GRACE_PERIOD) then
          (holdCompleteSet note.utensil note.hit_time reg,
           [.hold_complete utensil note.instrument now note.hit_time note.duration])
        else
          (holdBreakSet note.utensil note.hit_time reg,
           [.hold_break utensil note.instrument now note.hit_time note.duration
              note.duration 99])
      else (reg, [])

/-- The `for note in notes_copy` loop: iterate over the entries of the
snapshot copy taken at pass start; the copy shares its note objects with
the live list, so each iteration reads the current state of its note,
retrieved here by its identity key (the registry keeps at most one entry
per key, per the data-model invariant). -/
def judgeLoop (fr : FireRefs) (utensil : String) (sd : SensorData) (now : ℚ) :
    List Note → List Note × List Emission → List Note × List Emission
  | [], acc => acc
  | n0 :: rest, (reg, ems) =>
    match findNote reg n0.utensil n0.hit_time with
    | none => judgeLoop fr utensil sd now rest (reg, ems)
    | some note =>
      let r := judgeOne fr utensil sd now note reg
      judgeLoop fr utensil sd now rest (r.1, ems ++ r.2)

/-- The prune at the end of every judgment pass (`game_logic.py` lines
210-219): drop taps that are judged **or past the hit window**, and
holds that are complete or broken. -/
def pruneNotes (now : ℚ) (reg : List Note) : List Note :=
  reg.filter fun n =>
    !((!n.is_hold && (n.hit || decide (now > n.hit_time + HIT_WINDOW))) ||
      (n.is_hold && (n.hit || n.hold_broken)))

/-- `game_logic.check_note_hits(utensil, sensor_data, socketio)` executed
at clock reading `now` against registry `reg`: judge every note, then
prune. -/
def check_note_hits (fr : FireRefs) (utensil : String) (sd : SensorData)
    (now : ℚ) (reg : List Note) : List Note × List Emission :=
  let r := judgeLoop fr utensil sd now reg (reg, [])
  (pruneNotes now r.1, r.2)

/-- One note's treatment by a miss-watchdog scan
(`game_logic.note_miss_checker`, lines 241-278). -/
def missCheckNote (now : ℚ) (n : Note) : Note × List Emission :=
  if n.hit || n.hold_broken then (n, [])
  else if !n.is_hold then
    if decide (now > n.hit_time + HIT_WINDOW) then
      ({ n with hit := true }, [.miss n.utensil n.instrument n.hit_time now false])
    else (n, [])
  else if !n.hold_started && decide (now > n.hit_time + HIT_WINDOW) then
    ({ n with hold_broken := true }, [.miss n.utensil n.instrument n.hit_time now true])
  else (n, [])

/-- One full watchdog tick: the lock-protected scan over `pending_notes`
at clock reading `now` (the body of the `while chart_playing_flag()`
loop of `note_miss_checker`). -/
def note_miss_tick (now : ℚ) : List Note → List Note × List Emission
  | [] => ([], [])
  | n :: rest =>
    let r := missCheckNote now n
    let rr := note_miss_tick now rest
    (r.1 :: rr.1, r.2 ++ rr.2)

/-- An atomic step of the engine: either one judgment pass (one incoming
sensor reading handled by `check_note_hits`) or one miss-watchdog
scan. -/
inductive Step
  | judge (utensil : String) (sd : SensorData) (now : ℚ)
  | watchdog (now : ℚ)

/-- Apply one step to the registry. -/
def applyStep (fr : FireRefs) (reg : List Note) : Step → List Note × List Emission
  | .judge u sd now => check_note_hits fr u sd now reg
  | .watchdog now => note_miss_tick now reg

/-- Run a sequence of judgment passes and watchdog ticks, collecting all
emissions in order. -/
def runSteps (fr : FireRefs) (reg : List Note) : List Step → List Note × List Emission
  | [] => (reg, [])
  | s :: rest =>
    let r1 := applyStep fr reg s
    let r2 := runSteps fr r1.1 rest
    (r2.1, r1.2 ++ r2.2)

/-- The terminal-outcome emissions: `hit` or `miss` finalize a tap;
`hold_complete`, `hold_break` or a watchdog `miss` finalize a hold.
`hold_start` is not an outcome.  Returns the key `(utensil, scheduled)`
of the finalized note. -/
def outcomeKey : Emission → Option (String × ℚ)
  | .hit u _ _ sched _ => some (u, sched)
  | .hold_start _ _ _ _ _ _ => none
  | .hold_break u _ _ sched _ _ _ => some (u, sched)
  | .hold_complete u _ _ sched _ => some (u, sched)
  | .miss u _ sched _ _ => some (u, sched)

/-- How many terminal outcomes a list of emissions reports for the note
with key `(u, t)`. -/
def outcomeCount (u : String) (t : ℚ) (ems : List Emission) : ℕ :=
  (ems.filter (fun e => outcomeKey e == some (u, t))).length

/-- A note's identity key `(utensil, hit_time)`. -/
def keyPair (n : Note) : String × ℚ := (n.utensil, n.hit_time)

/-- A note is finalized once `hit` or `hold_broken` is set: `hit` marks a
judged tap, a missed tap, or a completed hold; `hold_broken` a broken or
missed hold. -/
def flagged (n : Note) : Bool := n.hit || n.hold_broken

/-- Flag-consistency of a single registry entry.  Taps never carry hold
flags; for holds, an active hold has started and is not yet finalized,
and a completed hold has started.  All chart-built notes satisfy this
and every engine transition preserves it. -/
def NoteOK (n : Note) : Prop :=
  if n.is_hold then
    (n.hold_active = true → n.hold_started = true) ∧
    (flagged n = true → n.hold_active = false) ∧
    (n.hit = true → n.hold_started = true)
  else
    n.hold_started = false ∧ n.hold_active = false ∧ n.hold_broken = false

/-- The data-model invariant: the identity key `(utensil, hit_time)` is
unique within the registry. -/
def UniqueKeys (reg : List Note) : Prop := (reg.map keyPair).Nodup

/-- `1` when the registry holds a not-yet-finalized note with key
`(u, t)`, else `0`.  The quantity `outcomeCount + pendingAt` never
increases across engine steps, which bounds the number of terminal
outcomes per note. -/
def pendingAt (reg : List Note) (u : String) (t : ℚ) : ℕ :=
  match findNote reg u t with
  | some n => if flagged n then 0 else 1
  | none => 0

/-- Replace the first registry entry with key `(u, t)` by `x`. -/
def replaceKey (u : String) (t : ℚ) (x : Note) (reg : List Note) : List Note :=
  setFirst (fun m => sameKey m u t) (fun _ => x) reg

/-- The per-note view of one judgment iteration: the judged note's new
state and the emissions issued.  `judgeOne` is exactly this update
applied to the registry entry with the note's key
(`judgeOne_eq_replace`). -/
def judgeNote (fr : FireRefs) (utensil : String) (sd : SensorData) (now : ℚ)
    (note : Note) : Note × List Emission :=
  if note.utensil ≠ utensil then (note, [])
  else if note.hit && !note.is_hold then (note, [])
  else if note.hold_broken then (note, [])
  else
    let dt := now - note.hit_time
    if !note.is_hold then
      if dt < -HIT_WINDOW then (note, [])
      else if should_play fr utensil sd note.target (soundRuleThreshold utensil) then
        ({ note with hit := true },
         [.hit utensil note.instrument now note.hit_time (pyInt (dt * 1000))])
      else (note, [])
    else
      let condition_met := should_play fr utensil sd note.target (soundRuleThreshold utensil)
      if !note.hold_started then
        if dt < -HIT_WINDOW then (note, [])
        else if condition_met then
          ({ note with hold_started := true, hold_active := true,
                       last_check_time := some now },
           [.hold_start utensil note.instrument now note.hit_time note.duration
              (pyInt (dt * 1000))])
        else (note, [])
      else if note.hold_active && decide (now < note.hold_end_time) then
        match note.last_check_time with
        | none => (note, [])
        | some lct =>
          if decide (now - lct ≥ HOLD_CHECK_INTERVAL) then
            if !condition_met then
              ({ note with hold_active := false, hold_broken := true },
               [.hold_break utensil note.instrument now note.hit_time note.duration
                  (now - note.hit_time)
                  (pyInt ((now - note.hit_time) / note.duration * 100))])
            else ({ note with last_check_time := some now }, [])
          else (note, [])
      else if note.hold_active && decide (now ≥ note.hold_end_time) then
        if condition_met || decide (now - note.hold_end_time < HOLD_GRACE_PERIOD) then
          ({ note with hold_active := false, hit := true },
           [.hold_complete utensil note.instrument now note.hit_time note.duration])
        else
          ({ note with hold_active := false, hold_broken := true },
           [.hold_break utensil note.instrument now note.hit_time note.duration
              note.duration 99])
      else (note, [])

/-- Every registry entry is flag-consistent. -/
def RegOK (reg : List Note) : Prop := ∀ n ∈ reg, NoteOK n

/-- Fixture: arbitrary band reference values for concrete runs. -/
def fr0 : FireRefs := ⟨300, 500, 700⟩

/-- Fixture: a pan tap event at offset 1 s, target `"flip"`. -/
def tapEvt : ChartEvent :=
  { time := 1, utensil := "pan", instrument := "drums", target := some "flip" }

/-- Fixture: the pending tap note built from `tapEvt` at chart start 0. -/
def tapN : Note := mkNote 0 tapEvt

/-- Fixture: a snapshot with the pan contact held (`distance: true`). -/
def sdFlip : SensorData := { distance := some true }

/-- Fixture: a pan hold note in its end phase (`hit_time` 5 s, duration
2 s, started and active, sampled last at 6 s). -/
def holdN : Note :=
  { utensil := "pan", instrument := "drums", target := some "flip",
    hit_time := 5, duration := 2, is_hold := true, hit := false,
    hold_started := true, hold_active := true, hold_broken := false,
    hold_end_time := 7, last_check_time := some 6 }

/-- Fixture: a chart event with a short positive duration (0.5 s). -/
def shortEvt : ChartEvent :=
  { time := 1, utensil := "pan", instrument := "drums", target := some "flip",
    duration := some (1/2) }

/-- Fixture: a second, different chart event. -/
def evtB : ChartEvent :=
  { time := 2, utensil := "cutting_board", instrument := "knife",
    target := some "0" }

/-- Fixture: scheduler state with chart `[tapEvt]` loaded and the chart
thread running. -/
def stRunning : SchedState :=
  { chart_data := some [tapEvt], chart_running := true,
    pending_notes := [tapN], target_values := fun _ => none }

/-- Fixture: a snapshot with every field absent. -/
def sdEmpty : SensorData := {}

/-- Fixture: a snapshot carrying the evaluator's default values
explicitly: rotation 0, contact not held, every button released, the
coordinate at the center (512, 512). -/
def sdNeutral : SensorData :=
  { rotation := some 0, distance := some false, buttons := fun _ => some 0,
    x := some 512, y := some 512 }

lemma sameKey_iff {n : Note} {u : String} {t : ℚ} :
    sameKey n u t = true ↔ n.utensil = u ∧ n.hit_time = t := by
  simp [sameKey]

lemma findNote_cons {m : Note} {reg : List Note} {u : String} {t : ℚ} :
    findNote (m :: reg) u t = if sameKey m u t then some m else findNote reg u t := by
  by_cases h : sameKey m u t <;> simp [findNote, List.find?_cons, h]

lemma findNote_some {reg : List Note} {u : String} {t : ℚ} {n : Note}
    (h : findNote reg u t = some n) : n ∈ reg ∧ n.utensil = u ∧ n.hit_time = t := by
  have h1 := List.mem_of_find?_eq_some h
  have h2 := List.find?_some h
  exact ⟨h1, (sameKey_iff.1 h2).1, (sameKey_iff.1 h2).2⟩

lemma replaceKey_cons {m : Note} {reg : List Note} {u : String} {t : ℚ} {x : Note} :
    replaceKey u t x (m :: reg) =
      if sameKey m u t then x :: reg else m :: replaceKey u t x reg := by
  by_cases h : sameKey m u t <;> simp [replaceKey, setFirst, h]

lemma replaceKey_of_none {reg : List Note} {u : String} {t : ℚ} {x : Note}
    (h : findNote reg u t = none) : replaceKey u t x reg = reg := by
  induction reg with
  | nil => rfl
  | cons m rest ih =>
    rw [findNote_cons] at h
    by_cases hm : sameKey m u t
    · simp [hm] at h
    · simp [hm] at h
      simp [replaceKey_cons, hm, ih h]

lemma replaceKey_self {reg : List Note} {u : String} {t : ℚ} {n : Note}
    (h : findNote reg u t = some n) : replaceKey u t n reg = reg := by
  induction reg with
  | nil => simp [findNote] at h
  | cons m rest ih =>
    rw [findNote_cons] at h
    by_cases hm : sameKey m u t
    · simp [hm] at h
      subst h
      simp [replaceKey_cons, hm]
    · simp [hm] at h
      simp [replaceKey_cons, hm, ih h]

lemma findNote_replaceKey_self {reg : List Note} {u : String} {t : ℚ} {x n : Note}
    (h : findNote reg u t = some n) (hxu : x.utensil = u) (hxt : x.hit_time = t) :
    findNote (replaceKey u t x reg) u t = some x := by
  induction reg with
  | nil => simp [findNote] at h
  | cons m rest ih =>
    rw [findNote_cons] at h
    by_cases hm : sameKey m u t
    · simp [replaceKey_cons, hm, findNote_cons, sameKey_iff.2 ⟨hxu, hxt⟩]
    · simp [hm] at h
      simp [replaceKey_cons, hm, findNote_cons, ih h]

lemma findNote_replaceKey_ne {reg : List Note} {u : String} {t : ℚ} {x : Note}
    {u' : String} {t' : ℚ} (hxu : x.utensil = u) (hxt : x.hit_time = t)
    (hne : ¬(u = u' ∧ t = t')) :
    findNote (replaceKey u t x reg) u' t' = findNote reg u' t' := by
  induction reg with
  | nil => rfl
  | cons m rest ih =>
    by_cases hm : sameKey m u t
    · have hmk := sameKey_iff.1 hm
      have hmne : sameKey m u' t' = false := by
        rw [Bool.eq_false_iff]
        intro hc
        have hck := sameKey_iff.1 hc
        exact hne ⟨hmk.1 ▸ hck.1, hmk.2 ▸ hck.2⟩
      have hxne : sameKey x u' t' = false := by
        rw [Bool.eq_false_iff]
        intro hc
        have hck := sameKey_iff.1 hc
        exact hne ⟨hxu ▸ hck.1, hxt ▸ hck.2⟩
      simp [replaceKey_cons, hm, findNote_cons, hmne, hxne]
    · by_cases hm' : sameKey m u' t'
      · simp [replaceKey_cons, hm, findNote_cons, hm']
      · simp [replaceKey_cons, hm, findNote_cons, hm', ih]

lemma map_keyPair_replaceKey {reg : List Note} {u : String} {t : ℚ} {x : Note}
    (hxu : x.utensil = u) (hxt : x.hit_time = t) :
    (replaceKey u t x reg).map keyPair = reg.map keyPair := by
  induction reg with
  | nil => rfl
  | cons m rest ih =>
    by_cases hm : sameKey m u t
    · have hmk := sameKey_iff.1 hm
      simp [replaceKey_cons, hm, keyPair, hxu, hxt, hmk.1, hmk.2]
    · simp [replaceKey_cons, hm, ih]

lemma mem_replaceKey {reg : List Note} {u : String} {t : ℚ} {x m : Note}
    (h : m ∈ replaceKey u t x reg) : m ∈ reg ∨ m = x := by
  induction reg with
  | nil => simp [replaceKey, setFirst] at h
  | cons a rest ih =>
    by_cases ha : sameKey a u t
    · rw [replaceKey_cons, if_pos ha] at h
      rcases List.mem_cons.1 h with h | h
      · right; exact h
      · left; exact List.mem_cons_of_mem _ h
    · rw [replaceKey_cons, if_neg ha] at h
      rcases List.mem_cons.1 h with h | h
      · left; exact h ▸ List.mem_cons_self _ _
      · rcases ih h with h | h
        · left; exact List.mem_cons_of_mem _ h
        · right; exact h

lemma setFirst_sameKey_eq {reg : List Note} {u : String} {t : ℚ} {n : Note}
    {f : Note → Note} (h : findNote reg u t = some n) :
    setFirst (fun m => sameKey m u t) f reg = replaceKey u t (f n) reg := by
  induction reg with
  | nil => simp [findNote] at h
  | cons m rest ih =>
    rw [findNote_cons] at h
    by_cases hm : sameKey m u t
    · simp [hm] at h
      subst h
      simp [setFirst, replaceKey_cons, hm]
    · simp [hm] at h
      simp [setFirst, replaceKey_cons, hm, ih h]

lemma tapSet_eq {reg : List Note} {u : String} {t : ℚ} {n : Note}
    (h : findNote reg u t = some n) (hn : n.hit = false) :
    tapSet u t reg = replaceKey u t { n with hit := true } reg := by
  induction reg with
  | nil => simp [findNote] at h
  | cons m rest ih =>
    rw [findNote_cons] at h
    by_cases hm : sameKey m u t
    · simp [hm] at h
      subst h
      have hstep : tapSet u t (m :: rest) = { m with hit := true } :: rest := by
        simp [tapSet, setFirst, hm, hn]
      rw [hstep, replaceKey_cons, if_pos hm]
    · simp [hm] at h
      have hstep : tapSet u t (m :: rest) = m :: tapSet u t rest := by
        simp [tapSet, setFirst, hm]
      rw [hstep, replaceKey_cons, if_neg hm, ih h]

lemma holdStartSet_eq {reg : List Note} {u : String} {t now : ℚ} {n : Note}
    (h : findNote reg u t = some n) :
    holdStartSet u t now reg =
      replaceKey u t
        { n with hold_started := true, hold_active := true,
                 last_check_time := some now } reg :=
  setFirst_sameKey_eq h

lemma holdBreakSet_eq {reg : List Note} {u : String} {t : ℚ} {n : Note}
    (h : findNote reg u t = some n) :
    holdBreakSet u t reg =
      replaceKey u t { n with hold_active := false, hold_broken := true } reg :=
  setFirst_sameKey_eq h

lemma holdCompleteSet_eq {reg : List Note} {u : String} {t : ℚ} {n : Note}
    (h : findNote reg u t = some n) :
    holdCompleteSet u t reg =
      replaceKey u t { n with hold_active := false, hit := true } reg :=
  setFirst_sameKey_eq h

lemma lastCheckSet_eq {reg : List Note} {u : String} {t now : ℚ} {n : Note}
    (h : findNote reg u t = some n) :
    lastCheckSet u t now reg =
      replaceKey u t { n with last_check_time := some now } reg :=
  setFirst_sameKey_eq h

lemma judgeOne_eq_replace {fr : FireRefs} {utensil : String} {sd : SensorData}
    {now : ℚ} {reg : List Note} {n : Note}
    (h : findNote reg n.utensil n.hit_time = some n) :
    judgeOne fr utensil sd now n reg =
      (replaceKey n.utensil n.hit_time (judgeNote fr utensil sd now n).1 reg,
       (judgeNote fr utensil sd now n).2) := by
  obtain ⟨nu, ni, ntar, nht, nd, nih, nh, nhs, nha, nhb, nhe, nlc⟩ := n
  simp only [judgeOne, judgeNote]
  cases nih <;> cases nh <;> cases nhs <;> cases nha <;> cases nhb <;> cases nlc <;>
    simp only [Bool.and_true, Bool.true_and, Bool.and_false, Bool.false_and,
      Bool.not_true, Bool.not_false, Bool.or_true, Bool.true_or, Bool.false_or,
      Bool.or_false, Bool.false_eq_true, Bool.true_eq_false, if_true, if_false,
      ite_true, ite_false, eq_self_iff_true, not_true, not_false_iff] <;>
    split_ifs <;>
    first
      | rfl
      | rw [replaceKey_self h]
      | rw [tapSet_eq h rfl]
      | rw [holdStartSet_eq h]
      | rw [holdBreakSet_eq h]
      | rw [holdCompleteSet_eq h]
      | rw [lastCheckSet_eq h]

lemma outcomeCount_append {u : String} {t : ℚ} {e1 e2 : List Emission} :
    outcomeCount u t (e1 ++ e2) = outcomeCount u t e1 + outcomeCount u t e2 := by
  simp [outcomeCount, List.filter_append]

lemma outcomeCount_le_length {u : String} {t : ℚ} {ems : List Emission} :
    outcomeCount u t ems ≤ ems.length :=
  List.length_filter_le _ _

lemma outcomeCount_eq_zero {u : String} {t : ℚ} {ems : List Emission}
    (h : ∀ e ∈ ems, outcomeKey e ≠ some (u, t)) : outcomeCount u t ems = 0 := by
  induction ems with
  | nil => rfl
  | cons e rest ih =>
    have he : (outcomeKey e == some (u, t)) = false := by
      simpa using h e (List.mem_cons_self _ _)
    have hrest := ih (fun e' he' => h e' (List.mem_cons_of_mem _ he'))
    simp only [outcomeCount, List.filter_cons, he] at hrest ⊢
    simpa using hrest

lemma pendingAt_le_one {reg : List Note} {u : String} {t : ℚ} :
    pendingAt reg u t ≤ 1 := by
  cases h : findNote reg u t with
  | none => simp [pendingAt, h]
  | some n =>
    simp only [pendingAt, h]
    split_ifs <;> simp

set_option maxHeartbeats 2000000 in
/-- Bundled facts about one judgment iteration on a flag-consistent
note: the key is preserved, flag-consistency is preserved, at most one
emission is issued, every outcome emission names the judged note's key,
and a still-unfinalized result means no outcome was emitted. -/
lemma judgeNote_spec {fr : FireRefs} {u : String} {sd : SensorData} {now : ℚ}
    {n : Note} (hOK : NoteOK n) :
    (judgeNote fr u sd now n).1.utensil = n.utensil ∧
    (judgeNote fr u sd now n).1.hit_time = n.hit_time ∧
    NoteOK (judgeNote fr u sd now n).1 ∧
    (judgeNote fr u sd now n).2.length ≤ 1 ∧
    (∀ e ∈ (judgeNote fr u sd now n).2,
        outcomeKey e = none ∨ outcomeKey e = some (n.utensil, n.hit_time)) ∧
    (flagged (judgeNote fr u sd now n).1 = false →
        ∀ e ∈ (judgeNote fr u sd now n).2, outcomeKey e = none) := by
  obtain ⟨nu, ni, ntar, nht, nd, nih, nh, nhs, nha, nhb, nhe, nlc⟩ := n
  simp only [judgeNote]
  cases nih <;> cases nh <;> cases nhs <;> cases nha <;> cases nhb <;> cases nlc <;>
    simp only [NoteOK, flagged, Bool.and_true, Bool.true_and, Bool.and_false,
      Bool.false_and, Bool.not_true, Bool.not_false, Bool.or_true, Bool.true_or,
      Bool.false_or, Bool.or_false, Bool.false_eq_true, Bool.true_eq_false,
      if_true, if_false, ite_true, ite_false, eq_self_iff_true, not_true,
      not_false_iff] at hOK ⊢ <;>
    split_ifs <;>
    refine ⟨rfl, rfl, ?_, ?_, ?_, ?_⟩ <;>
    simp_all [NoteOK, flagged, outcomeKey]

/-- A finalized, flag-consistent note is inert under judgment. -/
lemma judgeNote_of_flagged {fr : FireRefs} {u : String} {sd : SensorData}
    {now : ℚ} {n : Note} (hOK : NoteOK n) (hfl : flagged n = true) :
    judgeNote fr u sd now n = (n, []) := by
  obtain ⟨nu, ni, ntar, nht, nd, nih, nh, nhs, nha, nhb, nhe, nlc⟩ := n
  simp only [judgeNote]
  cases nih <;> cases nh <;> cases nhs <;> cases nha <;> cases nhb <;> cases nlc <;>
    simp_all [NoteOK, flagged]

/-- One judgment iteration preserves flag-consistency and the key list,
and keeps the count of outcome emissions plus pending entries from
growing, at every key. -/
lemma judgeOne_account {fr : FireRefs} {u : String} {sd : SensorData} {now : ℚ}
    {reg : List Note} {n : Note}
    (h : findNote reg n.utensil n.hit_time = some n)
    (hOK : NoteOK n) (hRegOK : RegOK reg) :
    RegOK (judgeOne fr u sd now n reg).1 ∧
    (judgeOne fr u sd now n reg).1.map keyPair = reg.map keyPair ∧
    ∀ u' t', outcomeCount u' t' (judgeOne fr u sd now n reg).2 +
        pendingAt (judgeOne fr u sd now n reg).1 u' t' ≤ pendingAt reg u' t' := by
  obtain ⟨hku, hkt, hOK', hlen, hkeys, hunf⟩ :=
    @judgeNote_spec fr u sd now n hOK
  by_cases hfl : flagged n = true
  · have hnoop := @judgeNote_of_flagged fr u sd now n hOK hfl
    rw [judgeOne_eq_replace h, hnoop]
    dsimp only
    rw [replaceKey_self h]
    exact ⟨hRegOK, rfl, fun u' t' => by simp [outcomeCount]⟩
  · rw [judgeOne_eq_replace h]
    dsimp only
    refine ⟨?_, map_keyPair_replaceKey hku hkt, ?_⟩
    · intro m hm
      rcases mem_replaceKey hm with hm | rfl
      · exact hRegOK m hm
      · exact hOK'
    · intro u' t'
      have hfl' : flagged n = false := by revert hfl; cases flagged n <;> simp
      by_cases hkey : n.utensil = u' ∧ n.hit_time = t'
      · obtain ⟨rfl, rfl⟩ := hkey
        have hpend : pendingAt reg n.utensil n.hit_time = 1 := by
          simp [pendingAt, h, hfl']
        have hfind' := findNote_replaceKey_self (x := (judgeNote fr u sd now n).1)
          h hku hkt
        by_cases hflX : flagged (judgeNote fr u sd now n).1 = true
        · have hp0 : pendingAt
              (replaceKey n.utensil n.hit_time (judgeNote fr u sd now n).1 reg)
              n.utensil n.hit_time = 0 := by
            simp [pendingAt, hfind', hflX]
          have hc := le_trans
            (@outcomeCount_le_length n.utensil n.hit_time
              (judgeNote fr u sd now n).2) hlen
          omega
        · have hz : outcomeCount n.utensil n.hit_time (judgeNote fr u sd now n).2 = 0 := by
            refine outcomeCount_eq_zero (fun e he => ?_)
            have hflX' : flagged (judgeNote fr u sd now n).1 = false := by
              revert hflX; cases flagged (judgeNote fr u sd now n).1 <;> simp
            rw [hunf hflX' e he]
            simp
          have hp1 : pendingAt
              (replaceKey n.utensil n.hit_time (judgeNote fr u sd now n).1 reg)
              n.utensil n.hit_time ≤ 1 := pendingAt_le_one
          omega
      · have hfind' := @findNote_replaceKey_ne reg n.utensil n.hit_time
          (judgeNote fr u sd now n).1 u' t' hku hkt hkey
        have hz : outcomeCount u' t' (judgeNote fr u sd now n).2 = 0 := by
          refine outcomeCount_eq_zero (fun e he => ?_)
          rcases hkeys e he with hk | hk
          · simp [hk]
          · rw [hk]
            simp only [ne_eq, Option.some.injEq]
            intro hc
            exact hkey ⟨congrArg Prod.fst hc, congrArg Prod.snd hc⟩
        simp [pendingAt, hfind', hz]

/-- The full `for note in notes_copy` loop keeps the outcome-plus-pending
count from growing at every key, and preserves flag-consistency and the
key list. -/
lemma judgeLoop_account {fr : FireRefs} {u : String} {sd : SensorData} {now : ℚ} :
    ∀ (l reg : List Note) (ems : List Emission), RegOK reg →
    RegOK (judgeLoop fr u sd now l (reg, ems)).1 ∧
    (judgeLoop fr u sd now l (reg, ems)).1.map keyPair = reg.map keyPair ∧
    ∀ u' t', outcomeCount u' t' (judgeLoop fr u sd now l (reg, ems)).2 +
        pendingAt (judgeLoop fr u sd now l (reg, ems)).1 u' t' ≤
      outcomeCount u' t' ems + pendingAt reg u' t'
  | [], reg, ems, hOK => ⟨hOK, rfl, fun _ _ => le_refl _⟩
  | n0 :: rest, reg, ems, hOK => by
    cases hfind : findNote reg n0.utensil n0.hit_time with
    | none =>
      simp only [judgeLoop, hfind]
      exact judgeLoop_account rest reg ems hOK
    | some note =>
      obtain ⟨hmem, hnu, hnt⟩ := findNote_some hfind
      have hfind' : findNote reg note.utensil note.hit_time = some note := by
        rw [hnu, hnt]; exact hfind
      obtain ⟨hR1, hM1, hC1⟩ :=
        @judgeOne_account fr u sd now reg note hfind' (hOK note hmem) hOK
      obtain ⟨hR2, hM2, hC2⟩ :=
        judgeLoop_account rest (judgeOne fr u sd now note reg).1
          (ems ++ (judgeOne fr u sd now note reg).2) hR1
      simp only [judgeLoop, hfind]
      refine ⟨hR2, hM2.trans hM1, fun u' t' => ?_⟩
      have h2 := hC2 u' t'
      rw [outcomeCount_append] at h2
      have h1 := hC1 u' t'
      omega

lemma findNote_eq_none_of_keys {reg : List Note} {u : String} {t : ℚ}
    (h : ∀ n ∈ reg, sameKey n u t = false) : findNote reg u t = none :=
  List.find?_eq_none.2 (by intro n hn; simp [h n hn])

lemma UniqueKeys_cons {m : Note} {rest : List Note} (hU : UniqueKeys (m :: rest)) :
    keyPair m ∉ rest.map keyPair ∧ UniqueKeys rest := by
  have h : (keyPair m :: rest.map keyPair).Nodup := hU
  exact ⟨(List.nodup_cons.1 h).1, (List.nodup_cons.1 h).2⟩

lemma RegOK_prune {now : ℚ} {reg : List Note} (hOK : RegOK reg) :
    RegOK (pruneNotes now reg) :=
  fun n hn => hOK n (List.mem_of_mem_filter hn)

lemma UniqueKeys_prune {now : ℚ} {reg : List Note} (hU : UniqueKeys reg) :
    UniqueKeys (pruneNotes now reg) :=
  List.Nodup.sublist (List.Sublist.map keyPair (List.filter_sublist reg)) hU

lemma pendingAt_cons {m : Note} {rest : List Note} {u : String} {t : ℚ} :
    pendingAt (m :: rest) u t =
      if sameKey m u t then (if flagged m then 0 else 1) else pendingAt rest u t := by
  by_cases hm : sameKey m u t <;> simp [pendingAt, findNote_cons, hm]

lemma sameKey_false_of_not_mem {reg : List Note} {u : String} {t : ℚ}
    (hmem : (u, t) ∉ reg.map keyPair) : ∀ n ∈ reg, sameKey n u t = false := by
  intro n hn
  cases hx : sameKey n u t
  · rfl
  · obtain ⟨h1, h2⟩ := sameKey_iff.1 hx
    exact absurd (List.mem_map.2 ⟨n, hn, by simp [keyPair, h1, h2]⟩) hmem

/-- Filtering a unique-key registry never creates a pending entry: the
pending count at any key can only drop (to zero when the entry is
removed). -/
lemma pendingAt_filter_le {p : Note → Bool} {reg : List Note} {u : String} {t : ℚ}
    (hU : UniqueKeys reg) :
    pendingAt (reg.filter p) u t ≤ pendingAt reg u t := by
  induction reg with
  | nil => simp [pendingAt, findNote]
  | cons m rest ih =>
    obtain ⟨hmem, hU'⟩ := UniqueKeys_cons hU
    rw [List.filter_cons, pendingAt_cons]
    by_cases hm : sameKey m u t
    · obtain ⟨hmu, hmt⟩ := sameKey_iff.1 hm
      have hkm : keyPair m = (u, t) := by simp [keyPair, hmu, hmt]
      have hkeys := sameKey_false_of_not_mem (hkm ▸ hmem)
      have hnone : findNote (rest.filter p) u t = none :=
        findNote_eq_none_of_keys
          (fun n hn => hkeys n (List.mem_of_mem_filter hn))
      rw [if_pos hm]
      cases hkeep : p m
      · rw [if_neg (by simp)]
        simp [pendingAt, hnone]
      · rw [if_pos rfl, pendingAt_cons, if_pos hm]
    · rw [if_neg hm]
      cases hkeep : p m
      · rw [if_neg (by simp)]
        exact ih hU'
      · rw [if_pos rfl, pendingAt_cons, if_neg hm]
        exact ih hU'

/-- Pruning never creates a pending entry. -/
lemma pendingAt_prune_le {now : ℚ} {reg : List Note} {u : String} {t : ℚ}
    (hU : UniqueKeys reg) :
    pendingAt (pruneNotes now reg) u t ≤ pendingAt reg u t :=
  pendingAt_filter_le hU

/-- A full judgment pass (`check_note_hits`): flag-consistency and key
uniqueness are preserved, and at every key the number of outcome
emissions plus surviving pending entries does not grow. -/
lemma check_note_hits_account {fr : FireRefs} {u : String} {sd : SensorData}
    {now : ℚ} {reg : List Note} (hU : UniqueKeys reg) (hOK : RegOK reg) :
    UniqueKeys (check_note_hits fr u sd now reg).1 ∧
    RegOK (check_note_hits fr u sd now reg).1 ∧
    ∀ u' t', outcomeCount u' t' (check_note_hits fr u sd now reg).2 +
        pendingAt (check_note_hits fr u sd now reg).1 u' t' ≤ pendingAt reg u' t' := by
  obtain ⟨hR, hM, hC⟩ := @judgeLoop_account fr u sd now reg reg [] hOK
  have hUr : UniqueKeys (judgeLoop fr u sd now reg (reg, [])).1 := by
    unfold UniqueKeys
    rw [hM]
    exact hU
  unfold check_note_hits
  dsimp only
  refine ⟨UniqueKeys_prune hUr, RegOK_prune hR, fun u' t' => ?_⟩
  have h1 := hC u' t'
  have h2 := @pendingAt_prune_le now
    (judgeLoop fr u sd now reg (reg, [])).1 u' t' hUr
  simp only [outcomeCount, List.filter_nil, List.length_nil, Nat.zero_add] at h1
  have h3 : outcomeCount u' t' (judgeLoop fr u sd now reg (reg, [])).2 =
      (List.filter (fun e => outcomeKey e == some (u', t'))
        (judgeLoop fr u sd now reg (reg, [])).2).length := rfl
  omega

lemma sameKey_congr {x m : Note} (hu : x.utensil = m.utensil)
    (ht : x.hit_time = m.hit_time) {u : String} {t : ℚ} :
    sameKey x u t = sameKey m u t := by
  simp [sameKey, hu, ht]

lemma missCheckNote_key {now : ℚ} {n : Note} :
    (missCheckNote now n).1.utensil = n.utensil ∧
    (missCheckNote now n).1.hit_time = n.hit_time := by
  unfold missCheckNote
  split_ifs <;> simp

lemma missCheckNote_emkeys {now : ℚ} {n : Note} :
    ∀ e ∈ (missCheckNote now n).2, outcomeKey e = some (n.utensil, n.hit_time) := by
  unfold missCheckNote
  split_ifs <;> simp [outcomeKey]

lemma missCheckNote_ok {now : ℚ} {n : Note} (hOK : NoteOK n) :
    NoteOK (missCheckNote now n).1 := by
  obtain ⟨nu, ni, ntar, nht, nd, nih, nh, nhs, nha, nhb, nhe, nlc⟩ := n
  cases nih <;> cases nh <;> cases nhs <;> cases nha <;> cases nhb <;>
    simp_all [missCheckNote, NoteOK, flagged] <;> split_ifs <;> simp_all

/-- One watchdog visit to one note: the outcome emissions it issues plus
the note remaining pending never exceed the note's prior pending
count. -/
lemma missCheckNote_count {now : ℚ} {n : Note} :
    outcomeCount n.utensil n.hit_time (missCheckNote now n).2 +
      (if flagged (missCheckNote now n).1 then 0 else 1) ≤
      (if flagged n then 0 else 1) := by
  unfold missCheckNote
  split_ifs <;> simp_all [outcomeCount, outcomeKey, flagged]

lemma note_miss_tick_absent {now : ℚ} : ∀ {reg : List Note} {u : String} {t : ℚ},
    (∀ n ∈ reg, sameKey n u t = false) →
    outcomeCount u t (note_miss_tick now reg).2 = 0 ∧
    findNote (note_miss_tick now reg).1 u t = none
  | [], _, _, _ => ⟨rfl, rfl⟩
  | m :: rest, u, t, h => by
    have hm := h m (List.mem_cons_self _ _)
    obtain ⟨ih1, ih2⟩ := @note_miss_tick_absent now rest u t
      (fun n hn => h n (List.mem_cons_of_mem _ hn))
    have hk := @missCheckNote_key now m
    have hm' : sameKey (missCheckNote now m).1 u t = false := by
      rw [sameKey_congr hk.1 hk.2]; exact hm
    have hz : outcomeCount u t (missCheckNote now m).2 = 0 := by
      refine outcomeCount_eq_zero (fun e he => ?_)
      rw [missCheckNote_emkeys e he]
      simp only [ne_eq, Option.some.injEq]
      intro hc
      have : sameKey m u t = true :=
        sameKey_iff.2 ⟨congrArg Prod.fst hc, congrArg Prod.snd hc⟩
      rw [hm] at this
      exact Bool.false_ne_true this
    constructor
    · simp only [note_miss_tick]
      rw [outcomeCount_append, hz, ih1]
    · simp only [note_miss_tick]
      rw [findNote_cons, if_neg (by simp [hm']), ih2]

/-- One watchdog tick over a unique-key, flag-consistent registry:
flag-consistency and the key list are preserved, and at every key the
outcome emissions plus surviving pending entries do not grow. -/
lemma note_miss_tick_account {now : ℚ} : ∀ {reg : List Note},
    UniqueKeys reg → RegOK reg →
    RegOK (note_miss_tick now reg).1 ∧
    (note_miss_tick now reg).1.map keyPair = reg.map keyPair ∧
    ∀ u t, outcomeCount u t (note_miss_tick now reg).2 +
        pendingAt (note_miss_tick now reg).1 u t ≤ pendingAt reg u t
  | [], _, _ =>
    ⟨fun n hn => absurd hn (List.not_mem_nil n), rfl, fun _ _ => le_refl _⟩
  | m :: rest, hU, hOK => by
    obtain ⟨hmem, hU'⟩ := UniqueKeys_cons hU
    have hOKm := hOK m (List.mem_cons_self _ _)
    obtain ⟨ihR, ihM, ihC⟩ := @note_miss_tick_account now rest hU'
      (fun n hn => hOK n (List.mem_cons_of_mem _ hn))
    have hk := @missCheckNote_key now m
    refine ⟨?_, ?_, ?_⟩
    · intro x hx
      simp only [note_miss_tick] at hx
      rcases List.mem_cons.1 hx with rfl | hx
      · exact missCheckNote_ok hOKm
      · exact ihR x hx
    · simp only [note_miss_tick, List.map_cons]
      rw [ihM]
      congr 1
      simp [keyPair, hk.1, hk.2]
    · intro u t
      simp only [note_miss_tick]
      rw [outcomeCount_append, pendingAt_cons, pendingAt_cons,
        sameKey_congr hk.1 hk.2]
      by_cases hm : sameKey m u t
      · obtain ⟨hmu, hmt⟩ := sameKey_iff.1 hm
        subst hmu
        subst hmt
        rw [if_pos hm, if_pos hm]
        have hkm : keyPair m = (m.utensil, m.hit_time) := rfl
        have habs := @note_miss_tick_absent now rest _ _
          (sameKey_false_of_not_mem (hkm ▸ hmem))
        rw [habs.1]
        have hcnt := @missCheckNote_count now m
        omega
      · rw [if_neg hm, if_neg hm]
        have hz : outcomeCount u t (missCheckNote now m).2 = 0 := by
          refine outcomeCount_eq_zero (fun e he => ?_)
          rw [missCheckNote_emkeys e he]
          simp only [ne_eq, Option.some.injEq]
          intro hc
          exact hm (sameKey_iff.2
            ⟨congrArg Prod.fst hc, congrArg Prod.snd hc⟩)
        rw [hz]
        simpa using ihC u t

/-- Any single engine step (judgment pass or watchdog tick) preserves
key uniqueness and flag-consistency and never grows outcome emissions
plus pending entries at any key. -/
lemma applyStep_account {fr : FireRefs} {reg : List Note} {s : Step}
    (hU : UniqueKeys reg) (hOK : RegOK reg) :
    UniqueKeys (applyStep fr reg s).1 ∧ RegOK (applyStep fr reg s).1 ∧
    ∀ u t, outcomeCount u t (applyStep fr reg s).2 +
        pendingAt (applyStep fr reg s).1 u t ≤ pendingAt reg u t := by
  cases s with
  | judge u sd now =>
    obtain ⟨h1, h2, h3⟩ := @check_note_hits_account fr u sd now reg hU hOK
    exact ⟨h1, h2, h3⟩
  | watchdog now =>
    obtain ⟨h1, h2, h3⟩ := @note_miss_tick_account now reg hU hOK
    refine ⟨?_, h1, h3⟩
    unfold UniqueKeys
    show ((note_miss_tick now reg).1.map keyPair).Nodup
    rw [h2]
    exact hU

/-- Over any sequence of steps the outcome emissions plus surviving
pending entries at a key never exceed the initial pending count. -/
lemma runSteps_account {fr : FireRefs} : ∀ (steps : List Step) {reg : List Note},
    UniqueKeys reg → RegOK reg → ∀ (u : String) (t : ℚ),
    outcomeCount u t (runSteps fr reg steps).2 +
      pendingAt (runSteps fr reg steps).1 u t ≤ pendingAt reg u t
  | [], reg, _, _, u, t => by simp [runSteps, outcomeCount]
  | s :: rest, reg, hU, hOK, u, t => by
    obtain ⟨hU1, hOK1, hC1⟩ := @applyStep_account fr reg s hU hOK
    have ih := @runSteps_account fr rest (applyStep fr reg s).1 hU1 hOK1 u t
    simp only [runSteps]
    rw [outcomeCount_append]
    have := hC1 u t
    omega

/-- C4, counterexample: the event `shortEvt` has positive duration
(0.5 s), yet its note is built as a tap (`is_hold = false`), because the
code compares the duration against `HOLD_THRESHOLD = 1`, not against
zero. -/
theorem C4_counterexample_short_hold_is_tap :
    (0 : ℚ) < 1/2 ∧ shortEvt.duration = some (1/2) ∧
    (mkNote 0 shortEvt).is_hold = false := by
  refine ⟨by norm_num, rfl, ?_⟩
  norm_num [mkNote, shortEvt, HOLD_THRESHOLD]

/-- C4 (amended): a chart event's note is judged as a hold if and only
if its duration exceeds `HOLD_THRESHOLD` (1 second); otherwise —
including small positive durations — it is a tap. -/
theorem C4_is_hold_iff_duration_gt_threshold (start_time : ℚ) (evt : ChartEvent) :
    (mkNote start_time evt).is_hold = true ↔ evt.duration.getD 0 > HOLD_THRESHOLD := by
  simp [mkNote]

/-- C6: for every chart event, the scheduled visual-queue time equals
the scheduled activation-queue time minus `LEAD_TIME`, exactly; the two
entries carry the same event, and the activation time is the absolute
`hit_time = chart start + event offset`. -/
theorem C6_visual_time_eq_activation_minus_lead (start_time : ℚ) (c : ℕ)
    (events : List ChartEvent) :
    List.Forall₂
      (fun v a => v.sched = a.sched - LEAD_TIME ∧ v.evt = a.evt ∧
        a.sched = start_time + a.evt.time)
      (buildQueues start_time c events).1 (buildQueues start_time c events).2.1 := by
  induction events generalizing c with
  | nil => exact List.Forall₂.nil
  | cons evt rest ih => exact List.Forall₂.cons ⟨rfl, rfl, rfl⟩ (ih (c + 2))

/-- C7, counterexample: the external direction tracker computes
`"clockwise"` for x = 600 (right of center 519) and the handler stores
it in the snapshot, yet the condition evaluator does not satisfy a
`"clockwise"` target even when the snapshot's direction matches it — the
quadrant words are the only mixing-bowl targets it recognizes. -/
theorem C7_counterexample_clockwise_not_satisfied :
    (detect_mixing_direction 600 none).1 = some "clockwise" ∧
    should_play fr0 "mixing_bowl"
      { x := some 600, y := some 512, direction := some "clockwise" }
      (some "clockwise") 0 = false := by
  constructor
  · norm_num [detect_mixing_direction, CENTER_X]
  · norm_num [should_play, fr0]

/-- C7 (amended): for the mixing bowl the evaluator recognizes only the
four quadrant words; a rotational-direction target
(clockwise/counterclockwise) is never satisfied, and the `direction`
field injected into the snapshot by the message handler is ignored by
the verdict entirely. -/
theorem C7_direction_targets_never_satisfied (fr : FireRefs) (sd : SensorData)
    (q : ℚ) (d t : Option String) :
    should_play fr "mixing_bowl" sd (some "clockwise") q = false ∧
    should_play fr "mixing_bowl" sd (some "counterclockwise") q = false ∧
    should_play fr "mixing_bowl" { sd with direction := d } t q =
      should_play fr "mixing_bowl" sd t q := by
  refine ⟨?_, ?_, ?_⟩
  · simp [should_play]
  · simp [should_play]
  · cases t <;> rfl

/-- C8: the condition evaluator is total — stated over the typed
snapshot space: an absent target is never satisfied, for any utensil and
snapshot; and a snapshot with every field missing evaluates exactly as
the snapshot carrying the neutral/center defaults (rotation 0, contact
released, buttons released, coordinate at center), for any utensil,
target and threshold — missing fields substitute defaults rather than
raising. -/
theorem C8_none_target_and_missing_field_defaults (fr : FireRefs) (u : String)
    (sd : SensorData) (q : ℚ) (t : Option String) :
    should_play fr u sd none q = false ∧
    should_play fr u sdEmpty t q = should_play fr u sdNeutral t q := by
  refine ⟨rfl, ?_⟩
  cases t <;> rfl

/-- C2, counterexample: at `now = 10` the prune removes the pending,
never-judged tap note `tapN` — its hit window has lapsed but its outcome
was never set — contradicting "pruning must not remove entries still
PENDING". -/
theorem C2_counterexample_pending_tap_pruned :
    pruneNotes 10 [tapN] = [] ∧ tapN.hit = false ∧ tapN.is_hold = false := by
  refine ⟨?_, rfl, by norm_num [tapN, tapEvt, mkNote, HOLD_THRESHOLD]⟩
  norm_num [pruneNotes, tapN, tapEvt, mkNote, HIT_WINDOW, HOLD_THRESHOLD]

/-- C2 (amended): the prune keeps exactly the notes that are neither
(a) taps judged **or past the hit window** nor (b) holds complete or
broken.  In particular it never removes a tap still inside its window, a
pending hold, or an active hold — but it does remove a pending tap whose
window has lapsed. -/
theorem C2_prune_keeps_iff (now : ℚ) (reg : List Note) (n : Note) :
    n ∈ pruneNotes now reg ↔
      n ∈ reg ∧
      ¬((n.is_hold = false ∧ (n.hit = true ∨ now > n.hit_time + HIT_WINDOW)) ∨
        (n.is_hold = true ∧ (n.hit = true ∨ n.hold_broken = true))) := by
  rw [pruneNotes, List.mem_filter]
  apply and_congr_right
  intro _
  by_cases hw : now > n.hit_time + HIT_WINDOW <;>
    cases hih : n.is_hold <;> cases hh : n.hit <;> cases hb : n.hold_broken <;>
      simp [hw, hih, hh, hb]

/-- C3 (code bug): the lock-protected check-and-set does make the first
reading the only one to set the `hit` flag, but the `hit` notification
is emitted whenever the condition check passed — it is not conditioned
on the check-and-set having found an unhit note.  Both readings here saw
the pending note `tapN` at their top-of-loop guards (the second passed
its guard before the first reading's transition landed); the first
transitions the registry and emits, the second leaves the registry
unchanged — exactly one HIT transition — yet emits a second identical
`hit` notification. -/
theorem C3_losing_reading_still_emits :
    judgeOne fr0 "pan" sdFlip 1 tapN [tapN] =
      ([{ tapN with hit := true }], [Emission.hit "pan" "drums" 1 1 0]) ∧
    judgeOne fr0 "pan" sdFlip 1 tapN [{ tapN with hit := true }] =
      ([{ tapN with hit := true }], [Emission.hit "pan" "drums" 1 1 0]) := by
  constructor <;>
    norm_num [judgeOne, tapSet, setFirst, sameKey, tapN, tapEvt, mkNote,
      should_play, strHas, fr0, sdFlip, soundRuleThreshold, HIT_WINDOW,
      HOLD_THRESHOLD, pyInt] <;>
    decide

/-- C5: a judgment pass on a hold note in its end phase (`hold_active`
and `now ≥ hold_end_time`): if the condition is satisfied or the elapsed
time past `hold_end_time` is within `HOLD_GRACE_PERIOD`, the note is
resolved complete (`hit` set, `hold_active` cleared) and `hold_complete`
is emitted; otherwise `hold_broken` is set and `hold_break` is emitted
with completion percent pinned at 99. -/
theorem C5_hold_end_phase (fr : FireRefs) (u : String) (sd : SensorData)
    (now : ℚ) (n : Note) (hu : n.utensil = u) (hih : n.is_hold = true)
    (hb : n.hold_broken = false) (hs : n.hold_started = true)
    (ha : n.hold_active = true) (hend : now ≥ n.hold_end_time) :
    (should_play fr u sd n.target (soundRuleThreshold u) = true ∨
        now - n.hold_end_time < HOLD_GRACE_PERIOD →
      judgeNote fr u sd now n =
        ({ n with hold_active := false, hit := true },
         [Emission.hold_complete u n.instrument now n.hit_time n.duration])) ∧
    (should_play fr u sd n.target (soundRuleThreshold u) = false →
      ¬ now - n.hold_end_time < HOLD_GRACE_PERIOD →
      judgeNote fr u sd now n =
        ({ n with hold_active := false, hold_broken := true },
         [Emission.hold_break u n.instrument now n.hit_time n.duration
            n.duration 99])) := by
  have hlt : ¬ now < n.hold_end_time := not_lt.2 hend
  constructor
  · intro hcond
    rcases hcond with hc | hg
    · simp [judgeNote, hu, hih, hb, hs, ha, hlt, hend, hc]
    · simp [judgeNote, hu, hih, hb, hs, ha, hlt, hend, hg]
  · intro hc hg
    simp [judgeNote, hu, hih, hb, hs, ha, hlt, hend, hc, hg]

/-- C5 witness: the end-phase rule at the concrete hold `holdN` with the
condition satisfied at `now = 7.05 s` (also within grace of the 7 s
end): the hold completes. -/
theorem C5_hold_end_phase_witness :
    judgeNote fr0 "pan" sdFlip (141/20) holdN =
      ({ holdN with hold_active := false, hit := true },
       [Emission.hold_complete "pan" "drums" (141/20) 5 2]) :=
  (C5_hold_end_phase fr0 "pan" sdFlip (141/20) holdN rfl rfl rfl rfl rfl
      (by norm_num [holdN])).1
    (Or.inl (by
      norm_num [should_play, strHas, sdFlip, holdN, soundRuleThreshold, fr0]
      decide))

/-- C9, counterexample: `start` on an already-running scheduler fails
with a warning and schedules nothing, but it has already overwritten the
loaded-chart reference with its argument — the previously loaded chart
state is *not* left unchanged on the failure path. -/
theorem C9_counterexample_chart_overwritten :
    stRunning.chart_data = some [tapEvt] ∧
    (start_chart_playback stRunning (some [evtB])).2 =
      StartOutcome.warnAlreadyRunning ∧
    (start_chart_playback stRunning (some [evtB])).1.chart_data ≠
      some [tapEvt] := by
  refine ⟨rfl, rfl, ?_⟩
  norm_num [start_chart_playback, stRunning, evtB, tapEvt]

/-- C9 (amended): `start(chart)` fails when the chart is absent or one
is already running: no playback is started (the outcome is the logged
error or warning, and the running flag is unchanged), and the registry
and target bindings are untouched — however the loaded-chart reference
is overwritten with the argument even on these failure paths, so the
previous chart state is not preserved. -/
theorem C9_start_failure_aborts (st : SchedState)
    (loaded : Option (List ChartEvent))
    (h : loaded = none ∨ st.chart_running = true) :
    (start_chart_playback st loaded).2 ≠ StartOutcome.started ∧
    (start_chart_playback st loaded).1.chart_running = st.chart_running ∧
    (start_chart_playback st loaded).1.pending_notes = st.pending_notes ∧
    (start_chart_playback st loaded).1.target_values = st.target_values ∧
    (start_chart_playback st loaded).1.chart_data = loaded := by
  rcases h with rfl | hrun
  · simp [start_chart_playback]
  · cases loaded with
    | none => simp [start_chart_playback]
    | some c => simp [start_chart_playback, hrun]

/-- C9 witness: the failure rule applied at the concrete running state
`stRunning`. -/
theorem C9_start_failure_aborts_witness :
    stRunning.chart_running = true ∧
    (start_chart_playback stRunning (some [evtB])).2 ≠ StartOutcome.started :=
  ⟨rfl, (C9_start_failure_aborts stRunning (some [evtB]) (Or.inr rfl)).1⟩

/-- C10: the miss watchdog records a tap miss by setting the same `hit`
flag a successful judgment sets, and changes nothing else: the stored
note after a judged HIT equals the stored note after a watchdog MISS
exactly, so no predicate on the registry entry distinguishes the two
outcomes — they differ only in the emitted notifications. -/
theorem C10_hit_and_miss_same_stored_note (fr : FireRefs) (sd : SensorData)
    (n : Note) (now1 now2 : ℚ)
    (hih : n.is_hold = false) (hh : n.hit = false) (hb : n.hold_broken = false)
    (hwin : ¬ now1 - n.hit_time < -HIT_WINDOW)
    (hcond : should_play fr n.utensil sd n.target
      (soundRuleThreshold n.utensil) = true)
    (hlate : now2 > n.hit_time + HIT_WINDOW) :
    (judgeNote fr n.utensil sd now1 n).1 = { n with hit := true } ∧
    (missCheckNote now2 n).1 = { n with hit := true } ∧
    (judgeNote fr n.utensil sd now1 n).1 = (missCheckNote now2 n).1 ∧
    (judgeNote fr n.utensil sd now1 n).2 ≠ (missCheckNote now2 n).2 := by
  have h1 : judgeNote fr n.utensil sd now1 n =
      ({ n with hit := true },
       [Emission.hit n.utensil n.instrument now1 n.hit_time
          (pyInt ((now1 - n.hit_time) * 1000))]) := by
    simp [judgeNote, hih, hh, hb, hwin, hcond]
  have h2 : missCheckNote now2 n =
      ({ n with hit := true },
       [Emission.miss n.utensil n.instrument n.hit_time now2 false]) := by
    simp [missCheckNote, hih, hh, hb, hlate]
  rw [h1, h2]
  refine ⟨rfl, rfl, rfl, ?_⟩
  simp

/-- C10 witness: the judged tap and the watchdog-missed tap coincide in
the registry at the concrete note `tapN`. -/
theorem C10_hit_and_miss_same_stored_note_witness :
    (judgeNote fr0 tapN.utensil sdFlip 1 tapN).1 = (missCheckNote 10 tapN).1 :=
  (C10_hit_and_miss_same_stored_note fr0 sdFlip tapN 1 10
    (by norm_num [tapN, tapEvt, mkNote, HOLD_THRESHOLD]) rfl rfl
    (by norm_num [tapN, tapEvt, mkNote, HIT_WINDOW])
    (by
      norm_num [should_play, strHas, sdFlip, tapN, tapEvt, mkNote,
        soundRuleThreshold, fr0]
      decide)
    (by norm_num [tapN, tapEvt, mkNote, HIT_WINDOW])).2.2.1

/-- C1, counterexample: a run in which the pending tap `tapN` ends with
no outcome at all.  A judgment pass for another utensil at `now = 10`
silently prunes the tap (window lapsed, never judged) before any
watchdog tick ran; the subsequent watchdog tick and judgment pass find
an empty registry.  The final registry is empty and the whole run
emitted no notification — the outcome was set zero times, not exactly
once. -/
theorem C1_counterexample_zero_outcomes :
    runSteps fr0 [tapN]
      [Step.judge "cutting_board" sdEmpty 10, Step.watchdog 20,
       Step.judge "pan" sdFlip 30] = ([], []) := by
  have h1 : check_note_hits fr0 "cutting_board" sdEmpty 10 [tapN] = ([], []) := by
    simp [check_note_hits, judgeLoop, judgeOne, findNote, sameKey, pruneNotes,
      tapN, tapEvt, mkNote, should_play, strHas, fr0, sdEmpty,
      soundRuleThreshold, HIT_WINDOW, HOLD_THRESHOLD]
    norm_num
  have h2 : note_miss_tick 20 ([] : List Note) = ([], []) := rfl
  have h3 : check_note_hits fr0 "pan" sdFlip 30 ([] : List Note) = ([], []) := rfl
  simp [runSteps, applyStep, h1, h2, h3]

/-- C1 (amended): over any sequence of judgment passes and watchdog
ticks from a registry with unique keys and flag-consistent entries, each
note's terminal outcome — `hit`/`miss` for a tap, `hold_complete`/
`hold_break`/`miss` for a hold — is reported at most once, never twice.
(The "never zero times" half of the original claim fails: a pending tap
past its window can be pruned by a judgment pass before the watchdog
records the miss; see the counterexample.) -/
theorem C1_outcome_at_most_once (fr : FireRefs) (reg : List Note)
    (steps : List Step) (u : String) (t : ℚ)
    (hU : UniqueKeys reg) (hOK : RegOK reg) :
    outcomeCount u t (runSteps fr reg steps).2 ≤ 1 := by
  have h := @runSteps_account fr steps reg hU hOK u t
  have h2 := @pendingAt_le_one reg u t
  omega

/-- C1 witness: the at-most-once bound at the concrete registry
`[tapN]` over two watchdog ticks (which emit the one miss and then stay
silent). -/
theorem C1_outcome_at_most_once_witness :
    UniqueKeys [tapN] ∧ RegOK [tapN] ∧
    outcomeCount "pan" 1
      (runSteps fr0 [tapN] [Step.watchdog 10, Step.watchdog 20]).2 ≤ 1 := by
  have hU : UniqueKeys [tapN] := by simp [UniqueKeys]
  have hOK : RegOK [tapN] := by
    intro n hn
    rw [List.mem_singleton] at hn
    subst hn
    norm_num [NoteOK, tapN, tapEvt, mkNote, flagged, HOLD_THRESHOLD]
  exact ⟨hU, hOK,
    C1_outcome_at_most_once fr0 [tapN] [Step.watchdog 10, Step.watchdog 20]
      "pan" 1 hU hOK⟩

end Kitchen
